import Mathlib

/-!
Verification of the report-formatting core of the Educator repository
(`components/AnalysisResult.tsx`), modelled as pure functions over `List Char`.

The embedding covers:
* the sentiment-JSON extraction performed by the `useMemo` block
  (the regex match, `JSON.parse`, truthiness test, block removal,
  dash-separator removal and trimming);
* the line-oriented markdown renderer `renderFormattedText`
  (line classification and inline `**` emphasis splitting);
* the pie-chart angle computation `getPieStyle`.

JavaScript strings are modelled as `List Char`; JavaScript numbers are
modelled as exact rationals (`Rat`).  The whitespace class models the ASCII
part of the JavaScript `\s` class and of `String.prototype.trim` (the exotic
Unicode space code points never occur in the inputs considered here).
-/

namespace Educator

/-- ASCII whitespace, as matched by the JavaScript regex class used in the
source (space, tab, newline, carriage return, vertical tab, form feed). -/
def isWs (c : Char) : Bool :=
  c = ' ' || c = '\t' || c = '\n' || c = '\r' || c = '\x0b' || c = '\x0c'

/-- JavaScript `String.prototype.trim`: drop whitespace from both ends. -/
def trim (l : List Char) : List Char :=
  ((l.dropWhile isWs).reverse.dropWhile isWs).reverse

/-- JavaScript `String.prototype.replace` with a plain-string pattern:
remove the first occurrence of `pat` (replacement is the empty string). -/
def removeFirst (pat : List Char) : List Char → List Char
  | [] => []
  | c :: tl =>
    if pat.isPrefixOf (c :: tl) then (c :: tl).drop pat.length
    else c :: removeFirst pat tl

/-- The 50-dash separator string removed globally from the cleaned text. -/
def dash50 : List Char := List.replicate 50 '-'

/-- Fuel-indexed worker for `removeDashes`; the fuel only serves
termination and is always sufficient when it starts at the length. -/
def removeDashesGo : Nat → List Char → List Char
  | 0, l => l
  | Nat.succ fuel, l =>
    match l with
    | [] => []
    | c :: tl =>
      if dash50.isPrefixOf (c :: tl) then removeDashesGo fuel ((c :: tl).drop 50)
      else c :: removeDashesGo fuel tl

/-- JavaScript global replacement of the literal 50-dash string by the empty
string: scan left to right, removing non-overlapping occurrences. -/
def removeDashes (l : List Char) : List Char :=
  removeDashesGo l.length l

/-- JavaScript `split('\n')`: split a character list at every newline;
the empty input yields one empty field, like `"".split` does. -/
def splitNl : List Char → List (List Char)
  | [] => [[]]
  | c :: tl =>
    if c = '\n' then [] :: splitNl tl
    else
      match splitNl tl with
      | h :: r => (c :: h) :: r
      | [] => [[c]]

/-- Does `pat` occur as a contiguous subsequence of `l`? -/
def containsSeq (pat : List Char) : List Char → Bool
  | [] => pat.isPrefixOf []
  | c :: tl => pat.isPrefixOf (c :: tl) || containsSeq pat tl

/-! ## JSON values and `JSON.parse` -/

/-- JSON values as produced by `JSON.parse`.  Numbers are modelled as exact
rationals; object fields are kept in parse order. -/
inductive Json where
  | null : Json
  | bool : Bool → Json
  | num : Rat → Json
  | str : List Char → Json
  | arr : List Json → Json
  | obj : List (List Char × Json) → Json

/-- Last-wins association lookup: JavaScript object literals with duplicate
keys keep the value of the last occurrence. -/
def objLookup (kvs : List (List Char × Json)) (k : List Char) : Option Json :=
  match kvs with
  | [] => none
  | (k', v) :: tl =>
    match objLookup tl k with
    | some r => some r
    | none => if k' = k then some v else none

/-- JavaScript property access `j.k` for a parsed JSON value: a lookup on
objects, `undefined` (here `none`) on every other value. -/
def getField (j : Json) (k : List Char) : Option Json :=
  match j with
  | .obj kvs => objLookup kvs k
  | _ => none

/-- JavaScript truthiness of a parsed JSON value. -/
def jsTruthy : Json → Bool
  | .null => false
  | .bool b => b
  | .num q => if q = 0 then false else true
  | .str s => if s = [] then false else true
  | .arr _ => true
  | .obj _ => true

/-- Truthiness of an optional value; `none` stands for `undefined`. -/
def jsTruthyOpt : Option Json → Bool
  | none => false
  | some v => jsTruthy v

/-- JSON-grammar whitespace (space, tab, newline, carriage return). -/
def jws (c : Char) : Bool :=
  c = ' ' || c = '\t' || c = '\n' || c = '\r'

/-- Skip JSON whitespace. -/
def skipJ (l : List Char) : List Char := l.dropWhile jws

def isDigit (c : Char) : Bool := '0' ≤ c && c ≤ '9'

def digitVal (c : Char) : Nat := c.toNat - 48

/-- Numeric value of a digit string. -/
def natOfDigits (l : List Char) : Nat :=
  l.foldl (fun a c => a * 10 + digitVal c) 0

/-- Hexadecimal digit value, for `\uXXXX` escapes. -/
def hexVal (c : Char) : Option Nat :=
  if '0' ≤ c && c ≤ '9' then some (c.toNat - 48)
  else if 'a' ≤ c && c ≤ 'f' then some (c.toNat - 87)
  else if 'A' ≤ c && c ≤ 'F' then some (c.toNat - 70)
  else none

/-- Decode a single-character JSON string escape. -/
def escChar (c : Char) : Option Char :=
  if c = '"' then some '"'
  else if c = '\\' then some '\\'
  else if c = '/' then some '/'
  else if c = 'b' then some '\x08'
  else if c = 'f' then some '\x0c'
  else if c = 'n' then some '\n'
  else if c = 'r' then some '\r'
  else if c = 't' then some '\t'
  else none

/-- Parse the body of a JSON string (the opening quote already consumed);
returns the decoded content and the rest after the closing quote.  Raw
control characters are rejected, as `JSON.parse` does. -/
def parseStr : List Char → Option (List Char × List Char)
  | [] => none
  | c :: tl =>
    if c = '"' then some ([], tl)
    else if c = '\\' then
      match tl with
      | [] => none
      | e :: tl2 =>
        if e = 'u' then
          match tl2 with
          | h1 :: h2 :: h3 :: h4 :: tl3 =>
            match hexVal h1, hexVal h2, hexVal h3, hexVal h4 with
            | some a, some b, some c3, some d =>
              (parseStr tl3).map
                (fun p => (Char.ofNat (a * 4096 + b * 256 + c3 * 16 + d) :: p.1, p.2))
            | _, _, _, _ => none
          | _ => none
        else
          match escChar e with
          | some ch => (parseStr tl2).map (fun p => (ch :: p.1, p.2))
          | none => none
    else if c.toNat < 32 then none
    else (parseStr tl).map (fun p => (c :: p.1, p.2))

/-- Parse a maximal run of digits: value, digit count and rest. -/
def parseDigits (l : List Char) : Option (Nat × Nat × List Char) :=
  let ds := l.takeWhile isDigit
  if ds = [] then none
  else some (natOfDigits ds, ds.length, l.dropWhile isDigit)

/-- Parse a JSON number (strict JSON grammar: optional minus, `0` or a
nonzero-led digit run, optional fraction, optional exponent). -/
def parseNum (l : List Char) : Option (Rat × List Char) :=
  let signed : Bool × List Char :=
    match l with
    | '-' :: tl => (true, tl)
    | _ => (false, l)
  let neg := signed.1
  let l1 := signed.2
  let ipart : Option (Nat × List Char) :=
    match l1 with
    | '0' :: tl => some (0, tl)
    | c :: _ =>
      if isDigit c then (parseDigits l1).map (fun p => (p.1, p.2.2)) else none
    | [] => none
  match ipart with
  | none => none
  | some (iv, l2) =>
    let fpart : Option (Rat × List Char) :=
      match l2 with
      | '.' :: tl =>
        match parseDigits tl with
        | some (fv, fc, l3) => some ((iv : Rat) + (fv : Rat) / ((10 : Rat) ^ fc), l3)
        | none => none
      | _ => some ((iv : Rat), l2)
    match fpart with
    | none => none
    | some (base, l3) =>
      let v := if neg then -base else base
      match l3 with
      | 'e' :: tl | 'E' :: tl =>
        let esigned : Bool × List Char :=
          match tl with
          | '-' :: tl2 => (true, tl2)
          | '+' :: tl2 => (false, tl2)
          | _ => (false, tl)
        match parseDigits esigned.2 with
        | some (ev, _, l4) =>
          some (if esigned.1 then v / ((10 : Rat) ^ ev) else v * ((10 : Rat) ^ ev), l4)
        | none => none
      | _ => some (v, l3)

mutual

/-- Fuel-indexed recursive-descent JSON value parser, following the grammar
accepted by `JSON.parse`.  Leading whitespace is skipped here; trailing
whitespace is the caller's concern. -/
def parseVal : Nat → List Char → Option (Json × List Char)
  | 0, _ => none
  | Nat.succ fuel, l =>
    match skipJ l with
    | [] => none
    | c :: tl =>
      if c = '\x7b' then parseObjStart fuel tl
      else if c = '[' then parseArrStart fuel tl
      else if c = '"' then (parseStr tl).map (fun p => (Json.str p.1, p.2))
      else if c = 't' then
        if ("rue".data).isPrefixOf tl then some (Json.bool true, tl.drop 3) else none
      else if c = 'f' then
        if ("alse".data).isPrefixOf tl then some (Json.bool false, tl.drop 4) else none
      else if c = 'n' then
        if ("ull".data).isPrefixOf tl then some (Json.null, tl.drop 3) else none
      else (parseNum (c :: tl)).map (fun p => (Json.num p.1, p.2))

/-- Parse an object body (after `{`): empty object or first member. -/
def parseObjStart : Nat → List Char → Option (Json × List Char)
  | 0, _ => none
  | Nat.succ fuel, l =>
    match skipJ l with
    | '\x7d' :: r => some (Json.obj [], r)
    | l' => parseMembers fuel l' []

/-- Parse a nonempty member list: `"key" : value` then `,` or `}`.
A comma must be followed by another member (no trailing comma). -/
def parseMembers : Nat → List Char → List (List Char × Json) →
    Option (Json × List Char)
  | 0, _, _ => none
  | Nat.succ fuel, l, acc =>
    match l with
    | '"' :: t =>
      match parseStr t with
      | some (k, r) =>
        match skipJ r with
        | ':' :: r2 =>
          match parseVal fuel r2 with
          | some (v, r3) =>
            match skipJ r3 with
            | ',' :: r5 => parseMembers fuel (skipJ r5) (acc ++ [(k, v)])
            | '\x7d' :: r5 => some (Json.obj (acc ++ [(k, v)]), r5)
            | _ => none
          | none => none
        | _ => none
      | none => none
    | _ => none

/-- Parse an array body (after `[`): empty array or first element. -/
def parseArrStart : Nat → List Char → Option (Json × List Char)
  | 0, _ => none
  | Nat.succ fuel, l =>
    match skipJ l with
    | ']' :: r => some (Json.arr [], r)
    | l' => parseElems fuel l' []

/-- Parse a nonempty element list: `value` then `,` or `]`. -/
def parseElems : Nat → List Char → List Json → Option (Json × List Char)
  | 0, _, _ => none
  | Nat.succ fuel, l, acc =>
    match parseVal fuel l with
    | some (v, r) =>
      match skipJ r with
      | ',' :: r2 => parseElems fuel r2 (acc ++ [v])
      | ']' :: r2 => some (Json.arr (acc ++ [v]), r2)
      | _ => none
    | none => none

end

/-- `JSON.parse`: parse one value and require only whitespace after it. -/
def jsonParse (l : List Char) : Option Json :=
  match parseVal (2 * l.length + 8) l with
  | some (v, r) => if skipJ r = [] then some v else none
  | none => none

/-! ## The fenced-block regex

The source matches `rawText` against

  /```json\s*({[\s\S]*?"sentiment_distribution"[\s\S]*?})\s*```/

(no global flag), i.e. it finds the leftmost position admitting a match and
returns the whole match and the captured group.  The greedy `\s*` parts are
deterministic here because the characters that follow them in the pattern
(`\x7b` resp. a backtick) are never whitespace; the lazy parts are resolved
by trying shorter possibilities first, with backtracking to later
occurrences on failure, exactly as a backtracking regex engine does. -/

def fenceOpen : List Char := "```json".data

def fenceClose : List Char := "```".data

/-- The literal required inside the captured braces. -/
def sdQuoted : List Char := "\"sentiment_distribution\"".data

/-- The key of the extracted field. -/
def sdKey : List Char := "sentiment_distribution".data

/-- Match the tail `\s*```` ``` ````` of the pattern: a maximal run of
whitespace followed by three backticks; return the consumed characters. -/
def closeTail (l : List Char) : Option (List Char) :=
  let run := l.takeWhile isWs
  let rest := l.dropWhile isWs
  if fenceClose.isPrefixOf rest then some (run ++ fenceClose) else none

/-- Resolve the second lazy star: find the earliest `}` whose remainder
matches the pattern tail, backtracking to later `}` on failure.  Returns the
characters before the `}` and the consumed tail. -/
def findClose : List Char → Option (List Char × List Char)
  | [] => none
  | c :: tl =>
    if c = '\x7d' then
      match closeTail tl with
      | some t => some ([], t)
      | none => (findClose tl).map (fun p => (c :: p.1, p.2))
    else (findClose tl).map (fun p => (c :: p.1, p.2))

/-- Resolve the first lazy star: find the earliest occurrence of the quoted
key such that the rest of the pattern also matches, backtracking to later
(possibly overlapping) occurrences on failure.  Returns the characters
before the key, the characters between key and `}`, and the consumed tail. -/
def findKeyClose : List Char → Option (List Char × List Char × List Char)
  | [] => none
  | c :: tl =>
    if sdQuoted.isPrefixOf (c :: tl) then
      match findClose ((c :: tl).drop sdQuoted.length) with
      | some (b2, t) => some ([], b2, t)
      | none => (findKeyClose tl).map (fun p => (c :: p.1, p.2))
    else (findKeyClose tl).map (fun p => (c :: p.1, p.2))

/-- Try to match the pattern right after a `\x60\x60\x60json` opener: a
maximal whitespace run, then the captured `\x7b ... \x7d` group, then the
pattern tail.  Returns `(match0, match1)` with `match0` including the
opener. -/
def matchAfterFence (l : List Char) : Option (List Char × List Char) :=
  let run := l.takeWhile isWs
  match l.dropWhile isWs with
  | '\x7b' :: tl =>
    match findKeyClose tl with
    | some (b1, b2, t) =>
      let m1 := '\x7b' :: (b1 ++ sdQuoted ++ b2 ++ ['\x7d'])
      some (fenceOpen ++ run ++ m1 ++ t, m1)
    | none => none
  | _ => none

/-- The whole regex: try each position from the left; at positions starting
with the opener, attempt the rest of the pattern, falling through to the
next position on failure.  Returns `(match0, match1)` of the first match. -/
def findMatch : List Char → Option (List Char × List Char)
  | [] => none
  | c :: tl =>
    if fenceOpen.isPrefixOf (c :: tl) then
      match matchAfterFence ((c :: tl).drop fenceOpen.length) with
      | some r => some r
      | none => findMatch tl
    else findMatch tl

/-! ## The extraction performed by the `useMemo` block -/

/-- The cleaned text computed on a successful parse: remove the first
occurrence of the whole match, trim, remove every 50-dash separator, trim. -/
def cleanAfter (raw m0 : List Char) : List Char :=
  trim (removeDashes (trim (removeFirst m0 raw)))

/-- The `useMemo` body of `AnalysisResult`: match the fenced-block regex,
`JSON.parse` the captured group, keep the `sentiment_distribution` field if
truthy, and clean the text; on no match or parse failure the raw text is
returned unchanged with no distribution. -/
def extractSentiment (raw : List Char) : List Char × Option Json :=
  match findMatch raw with
  | none => (raw, none)
  | some (m0, m1) =>
    match jsonParse m1 with
    | none => (raw, none)
    | some parsed =>
      let fld := getField parsed sdKey
      let dist := if jsTruthyOpt fld then fld else none
      (cleanAfter raw m0, dist)

/-! ## The markdown renderer `renderFormattedText` -/

/-- An inline span: plain text or `**`-emphasized text. -/
inductive Span where
  | plain : List Char → Span
  | emph : List Char → Span
deriving DecidableEq

/-- A display block produced for one line of the report. -/
inductive Block where
  | heading : Nat → List Char → Block
  | bullet : List Span → Block
  | para : List Span → Block
  | spacer : Block
deriving DecidableEq

/-- The two-character emphasis delimiter. -/
def star2 : List Char := "**".data

/-- Resolve the lazy `.*?` of `\*\*.*?\*\*`: the shortest run of
non-newline characters followed by a closing `**`.  Returns the body and
the rest after the closing delimiter. -/
def findEmphBody : List Char → Option (List Char × List Char)
  | [] => none
  | c :: tl =>
    if star2.isPrefixOf (c :: tl) then some ([], tl.drop 1)
    else if c = '\n' then none
    else (findEmphBody tl).map (fun p => (c :: p.1, p.2))

/-- Leftmost match of `\*\*.*?\*\*`: returns the text before the match, the
matched text and the text after it. -/
def scanEmph : List Char → Option (List Char × List Char × List Char)
  | [] => none
  | c :: tl =>
    if star2.isPrefixOf (c :: tl) then
      match findEmphBody (tl.drop 1) with
      | some (b, r) => some ([], star2 ++ b ++ star2, r)
      | none => (scanEmph tl).map (fun p => (c :: p.1, p.2))
    else (scanEmph tl).map (fun p => (c :: p.1, p.2))

/-- Fuel-indexed worker for `splitCapture`. -/
def splitCaptureGo : Nat → List Char → List (List Char)
  | 0, l => [l]
  | Nat.succ fuel, l =>
    match scanEmph l with
    | none => [l]
    | some (p, m, r) => p :: m :: splitCaptureGo fuel r

/-- JavaScript `content.split(/(\*\*.*?\*\*)/g)`: alternating unmatched
pieces and captured matches, empty pieces included. -/
def splitCapture (l : List Char) : List (List Char) :=
  splitCaptureGo (l.length + 1) l

/-- JavaScript `part.slice(2, -2)`: the fragment with two characters cut
from each end. -/
def sliceMid (f : List Char) : List Char :=
  (f.drop 2).take (f.length - 4)

/-- Classify one split fragment exactly as the source does:
`part.startsWith('**') && part.endsWith('**')` selects emphasis. -/
def classifyFrag (f : List Char) : Span :=
  if star2.isPrefixOf f && star2.isSuffixOf f then Span.emph (sliceMid f)
  else Span.plain f

/-- The span list rendered for a bullet or paragraph content string. -/
def parseSpans (content : List Char) : List Span :=
  (splitCapture content).map classifyFrag

/-- JavaScript `trimLine.replace(/^[-*—]\s+/, '')`: strip one leading
bullet marker together with the following whitespace run, if present. -/
def stripBullet (t : List Char) : List Char :=
  match t with
  | [] => []
  | c :: rest =>
    if c = '-' || c = '*' || c = '—' then
      if rest.takeWhile isWs = [] then t else rest.dropWhile isWs
    else t

def h1s : List Char := "# ".data
def h2s : List Char := "## ".data
def h3s : List Char := "### ".data
def b1s : List Char := "- ".data
def b2s : List Char := "* ".data
def b3s : List Char := "— ".data

/-- Classification of a single line, following the chain of `startsWith`
tests in `renderFormattedText`; heading text is produced by
`replace(prefixString, '')`, i.e. first-occurrence removal. -/
def classifyLine (line : List Char) : Block :=
  let t := trim line
  if h1s.isPrefixOf t then Block.heading 1 (removeFirst h1s t)
  else if h2s.isPrefixOf t then Block.heading 2 (removeFirst h2s t)
  else if h3s.isPrefixOf t then Block.heading 3 (removeFirst h3s t)
  else if b1s.isPrefixOf t || b2s.isPrefixOf t || b3s.isPrefixOf t then
    Block.bullet (parseSpans (stripBullet t))
  else if t = [] then Block.spacer
  else Block.para (parseSpans t)

/-- `renderFormattedText`: split on newline and classify each line. -/
def formatBlocks (s : List Char) : List Block :=
  (splitNl s).map classifyLine

/-! ## The pie chart `getPieStyle` -/

/-- The fixed iteration order over star keys. -/
def starOrder : List String := ["5", "4", "3", "2", "1"]

/-- The color token assigned to each star key in the source. -/
def colorOf (s : String) : String :=
  if s = "5" then "#10b981"
  else if s = "4" then "#34d399"
  else if s = "3" then "#facc15"
  else if s = "2" then "#fb923c"
  else "#f87171"

/-- `data[star] || 0`: the percentage for a star key, defaulting to 0. -/
def pieVal (data : List (String × Rat)) (s : String) : Rat :=
  (data.lookup s).getD 0

/-- `(val / 100) * 360`: the degree sweep of one star key. -/
def pieDeg (data : List (String × Rat)) (s : String) : Rat :=
  pieVal data s / 100 * 360

/-- `getPieStyle`: accumulate `(color, startDeg, endDeg)` segments over the
star keys in order, each segment starting at the running angle. -/
def getPieStyle (data : List (String × Rat)) : List (String × Rat × Rat) :=
  (starOrder.foldl
    (fun acc star =>
      let deg := pieVal data star / 100 * 360
      (acc.1 ++ [(colorOf star, acc.2, acc.2 + deg)], acc.2 + deg))
    ([], 0)).1

/-! ## Specification-side definitions

These re-state, in the specification's own words, the line classifier and
the span classifier, to be compared with the definitions translated from
the source.  Heading text is described as "the line with its matched
prefix removed once", i.e. dropping the prefix; emphasis is described by
"starts and ends with the two-character delimiter". -/

/-- Line classification as described by the specification: the same
priority order of tests, with heading text obtained by dropping the
matched prefix, and bullet text obtained by the single regex strip. -/
def classifyLineSpec (line : List Char) : Block :=
  let t := trim line
  if h1s <+: t then Block.heading 1 (t.drop h1s.length)
  else if h2s <+: t then Block.heading 2 (t.drop h2s.length)
  else if h3s <+: t then Block.heading 3 (t.drop h3s.length)
  else if b1s <+: t ∨ b2s <+: t ∨ b3s <+: t then
    Block.bullet (parseSpans (stripBullet t))
  else if t = [] then Block.spacer
  else Block.para (parseSpans t)

/-- The block sequence as described by the specification. -/
def formatBlocksSpec (s : List Char) : List Block :=
  (splitNl s).map classifyLineSpec

/-- Fragment classification as described by the specification: Emphasized
iff the fragment both starts and ends with the delimiter. -/
def classifyFragSpec (f : List Char) : Span :=
  if star2 <+: f ∧ star2 <:+ f then Span.emph (sliceMid f) else Span.plain f

/-- The text a span contributes to the rendered output. -/
def spanText : Span → List Char
  | .plain s => s
  | .emph s => s

/-- The concatenated visible text of a span list. -/
def textOf (spans : List Span) : List Char :=
  (spans.map spanText).flatten

/-! ## Bridging lemmas -/

theorem isPrefixOf_true (p l : List Char) : p.isPrefixOf l = true ↔ p <+: l := by
  induction p generalizing l with
  | nil => simp [List.isPrefixOf]
  | cons a as ih =>
    cases l with
    | nil => simp [List.isPrefixOf]
    | cons b bs =>
      simp [List.isPrefixOf, ih, List.cons_prefix_cons]

theorem isSuffixOf_true (p l : List Char) : p.isSuffixOf l = true ↔ p <:+ l := by
  simp [List.isSuffixOf, isPrefixOf_true, List.reverse_prefix]

theorem removeFirst_of_startsWith (p t : List Char) (h : p.isPrefixOf t = true) :
    removeFirst p t = t.drop p.length := by
  cases t with
  | nil => simp [removeFirst]
  | cons c tl => simp [removeFirst, h]

theorem classifyLine_eq_spec (line : List Char) :
    classifyLine line = classifyLineSpec line := by
  unfold classifyLine classifyLineSpec
  by_cases h1 : h1s <+: trim line
  · have hb : h1s.isPrefixOf (trim line) = true := (isPrefixOf_true _ _).mpr h1
    simp [hb, h1, removeFirst_of_startsWith _ _ hb]
  · have hb : ¬ h1s.isPrefixOf (trim line) = true := by
      simpa [isPrefixOf_true] using h1
    by_cases h2 : h2s <+: trim line
    · have hb2 : h2s.isPrefixOf (trim line) = true := (isPrefixOf_true _ _).mpr h2
      simp [hb, h1, hb2, h2, removeFirst_of_startsWith _ _ hb2]
    · have hb2 : ¬ h2s.isPrefixOf (trim line) = true := by
        simpa [isPrefixOf_true] using h2
      by_cases h3 : h3s <+: trim line
      · have hb3 : h3s.isPrefixOf (trim line) = true := (isPrefixOf_true _ _).mpr h3
        simp [hb, h1, hb2, h2, hb3, h3, removeFirst_of_startsWith _ _ hb3]
      · have hb3 : ¬ h3s.isPrefixOf (trim line) = true := by
          simpa [isPrefixOf_true] using h3
        simp [hb, h1, hb2, h2, hb3, h3, isPrefixOf_true, or_assoc]

theorem classifyFrag_eq_spec (f : List Char) :
    classifyFrag f = classifyFragSpec f := by
  unfold classifyFrag classifyFragSpec
  by_cases h : star2 <+: f ∧ star2 <:+ f
  · have hb : (star2.isPrefixOf f && star2.isSuffixOf f) = true := by
      simp [Bool.and_eq_true, isPrefixOf_true, isSuffixOf_true, h.1, h.2]
    simp [hb, h]
  · have hb : ¬ (star2.isPrefixOf f && star2.isSuffixOf f) = true := by
      simpa [Bool.and_eq_true, isPrefixOf_true, isSuffixOf_true] using h
    simp [hb, h]

theorem textOf_filter_ne_empty (l : List Span) :
    textOf (l.filter fun s => decide (s ≠ Span.plain [])) = textOf l := by
  induction l with
  | nil => rfl
  | cons s tl ih =>
    by_cases h : s = Span.plain []
    · subst h
      simpa [List.filter, textOf, spanText] using ih
    · simpa [List.filter, h, textOf, spanText] using
        congrArg (spanText s ++ ·) ih

theorem findMatch_none_of_no_fence (l : List Char)
    (h : containsSeq fenceOpen l = false) : findMatch l = none := by
  induction l with
  | nil => rfl
  | cons c tl ih =>
    unfold containsSeq at h
    rw [Bool.or_eq_false_iff] at h
    unfold findMatch
    simp [h.1, ih h.2]

theorem extract_of_none (t : List Char) (h : findMatch t = none) :
    extractSentiment t = (t, none) := by
  unfold extractSentiment
  rw [h]

theorem getPieStyle_explicit (data : List (String × Rat)) :
    getPieStyle data =
      [(colorOf "5", 0, pieDeg data "5"),
       (colorOf "4", pieDeg data "5", pieDeg data "5" + pieDeg data "4"),
       (colorOf "3", pieDeg data "5" + pieDeg data "4",
         pieDeg data "5" + pieDeg data "4" + pieDeg data "3"),
       (colorOf "2", pieDeg data "5" + pieDeg data "4" + pieDeg data "3",
         pieDeg data "5" + pieDeg data "4" + pieDeg data "3" + pieDeg data "2"),
       (colorOf "1",
         pieDeg data "5" + pieDeg data "4" + pieDeg data "3" + pieDeg data "2",
         pieDeg data "5" + pieDeg data "4" + pieDeg data "3" + pieDeg data "2"
           + pieDeg data "1")] := by
  simp [getPieStyle, starOrder, pieDeg, zero_add]

/-! ## Concrete inputs used by counterexamples and witnesses -/

def c1wRaw : List Char :=
  "pre\n```json\n\x7b\"sentiment_distribution\": \x7b\"5\": 80, \"4\": 10, \"3\": 5, \"2\": 3, \"1\": 2\x7d\x7d\n```\npost".data

def c1wM0 : List Char :=
  "```json\n\x7b\"sentiment_distribution\": \x7b\"5\": 80, \"4\": 10, \"3\": 5, \"2\": 3, \"1\": 2\x7d\x7d\n```".data

def c1wM1 : List Char :=
  "\x7b\"sentiment_distribution\": \x7b\"5\": 80, \"4\": 10, \"3\": 5, \"2\": 3, \"1\": 2\x7d\x7d".data

def c1wDist : Json :=
  Json.obj [("5".data, Json.num 80), ("4".data, Json.num 10),
    ("3".data, Json.num 5), ("2".data, Json.num 3), ("1".data, Json.num 2)]

def c1wParsed : Json := Json.obj [(sdKey, c1wDist)]

def c1cRaw : List Char := "```json \x7b\"sentiment_distribution\": 0\x7d ```".data

def c1cM1 : List Char := "\x7b\"sentiment_distribution\": 0\x7d".data

def c2wRaw : List Char :=
  "```json \x7b\"sentiment_distribution\": \x7b\"5\": 1,\x7d\x7d ```".data

def c2wM1 : List Char :=
  "\x7b\"sentiment_distribution\": \x7b\"5\": 1,\x7d\x7d".data

def c3cRaw : List Char :=
  "```json \x7b\"sentiment_distribution\": 1\x7d ``` x ```json \x7b\"sentiment_distribution\": 2\x7d ```".data

def c10wRaw : List Char :=
  "note\n```json \x7b\"sentiment_distribution\": null\x7d ```".data

def c10wM0 : List Char :=
  "```json \x7b\"sentiment_distribution\": null\x7d ```".data

def c10wM1 : List Char :=
  "\x7b\"sentiment_distribution\": null\x7d".data

def c9Input : List Char := "- item one\n- **item** two".data

/-! ## Claim theorems -/

/-- C1 (counterexample): the claim fails as universally stated.  For the
raw report whose fenced block is `\x7b"sentiment_distribution": 0\x7d` the
regex matches and the JSON parses, the parsed object's field is the number
0, yet the returned distribution is absent rather than equal to that
field (the source keeps the field only when it is truthy). -/
theorem c1_claim_counterexample :
    findMatch c1cRaw = some (c1cRaw, c1cM1)
    ∧ jsonParse c1cM1 = some (Json.obj [(sdKey, Json.num 0)])
    ∧ getField (Json.obj [(sdKey, Json.num 0)]) sdKey = some (Json.num 0)
    ∧ (extractSentiment c1cRaw).2 = none
    ∧ (none : Option Json) ≠ some (Json.num 0) := by
  refine ⟨rfl, rfl, rfl, rfl, ?_⟩
  simp

/-- C1 (amended): for every raw report in which the fenced-block regex
matches, the captured substring parses as JSON and the parsed object's
`sentiment_distribution` field is present and truthy, `extractSentiment`
returns that field untouched as the distribution, and a cleanText equal to
the raw text with the first matched fenced block removed, every 50-dash
separator removed, and surrounding whitespace trimmed. -/
theorem c1_extract_valid_truthy (raw m0 m1 : List Char) (p d : Json)
    (hm : findMatch raw = some (m0, m1)) (hp : jsonParse m1 = some p)
    (hf : getField p sdKey = some d) (ht : jsTruthy d = true) :
    extractSentiment raw = (cleanAfter raw m0, some d) := by
  simp [extractSentiment, hm, hp, hf, jsTruthyOpt, ht]

/-- C1 witness: the claim's example block yields exactly the example
distribution object, and the narrative text around the block survives. -/
theorem c1_extract_valid_truthy_witness :
    findMatch c1wRaw = some (c1wM0, c1wM1)
    ∧ jsonParse c1wM1 = some c1wParsed
    ∧ getField c1wParsed sdKey = some c1wDist
    ∧ jsTruthy c1wDist = true
    ∧ extractSentiment c1wRaw = ("pre\n\npost".data, some c1wDist) := by
  refine ⟨rfl, rfl, rfl, rfl, ?_⟩
  have h := c1_extract_valid_truthy c1wRaw c1wM0 c1wM1 c1wParsed c1wDist rfl rfl rfl rfl
  rw [h]
  rfl

/-- C2: when the fenced-block regex matches but the captured substring is
not valid JSON, `extractSentiment` returns the raw text unchanged (no
removal is performed) and an absent distribution. -/
theorem c2_extract_parse_failure (raw m0 m1 : List Char)
    (hm : findMatch raw = some (m0, m1)) (hp : jsonParse m1 = none) :
    extractSentiment raw = (raw, none) := by
  simp [extractSentiment, hm, hp]

/-- C2 witness: a fenced block with a trailing comma matches the regex,
fails to parse, and leaves the raw text untouched. -/
theorem c2_extract_parse_failure_witness :
    findMatch c2wRaw = some (c2wRaw, c2wM1)
    ∧ jsonParse c2wM1 = none
    ∧ extractSentiment c2wRaw = (c2wRaw, none) :=
  ⟨rfl, rfl, c2_extract_parse_failure c2wRaw c2wRaw c2wM1 rfl rfl⟩

/-- C3 (counterexample): extraction is not idempotent.  For a raw report
containing two fenced blocks, the first application removes only the first
block, so the second application still finds a match and returns a present
distribution. -/
theorem c3_claim_counterexample :
    (findMatch ((extractSentiment c3cRaw).1)).isSome = true
    ∧ (extractSentiment ((extractSentiment c3cRaw).1)).2 = some (Json.num 2)
    ∧ some (Json.num 2) ≠ (none : Option Json) :=
  ⟨rfl, rfl, by simp⟩

/-- C3 (amended): whenever the cleanText produced by a first application
contains no occurrence of the fence opener `\x60\x60\x60json`, a second
application is a no-op: the regex finds no match, nothing is removed, and
the distribution is absent. -/
theorem c3_idempotent_no_fence (raw : List Char)
    (h : containsSeq fenceOpen ((extractSentiment raw).1) = false) :
    findMatch ((extractSentiment raw).1) = none
    ∧ extractSentiment ((extractSentiment raw).1) = ((extractSentiment raw).1, none) :=
  ⟨findMatch_none_of_no_fence _ h,
   extract_of_none _ (findMatch_none_of_no_fence _ h)⟩

/-- C3 witness: a fence-free report is mapped to itself by both
applications. -/
theorem c3_idempotent_no_fence_witness :
    containsSeq fenceOpen ((extractSentiment ("hello".data)).1) = false
    ∧ findMatch ((extractSentiment ("hello".data)).1) = none
    ∧ extractSentiment ((extractSentiment ("hello".data)).1)
        = ((extractSentiment ("hello".data)).1, none) :=
  ⟨rfl, (c3_idempotent_no_fence ("hello".data) rfl).1,
   (c3_idempotent_no_fence ("hello".data) rfl).2⟩

/-- C4 (counterexample): with no fenced block the source returns the raw
text exactly as it is, without the surrounding-whitespace trimming the
claim describes: on input `" x "` the returned text still has its spaces. -/
theorem c4_claim_counterexample :
    findMatch (" x ".data) = none
    ∧ extractSentiment (" x ".data) = (" x ".data, none)
    ∧ (extractSentiment (" x ".data)).1 ≠ trim (" x ".data) := by
  refine ⟨rfl, rfl, ?_⟩
  decide

/-- C4 (amended): for every raw report in which the fenced-block regex
finds no match, `extractSentiment` returns the original text entirely
unchanged (no trimming is applied) and an absent distribution. -/
theorem c4_extract_no_match (raw : List Char) (h : findMatch raw = none) :
    extractSentiment raw = (raw, none) :=
  extract_of_none raw h

/-- C4 witness at a plain report with no fenced block. -/
theorem c4_extract_no_match_witness :
    findMatch ("plain report".data) = none
    ∧ extractSentiment ("plain report".data) = ("plain report".data, none) :=
  ⟨rfl, c4_extract_no_match ("plain report".data) rfl⟩

/-- C5: `formatBlocks` splits on newline and classifies each trimmed line
by prefix in the stated priority order, headings carrying the line with
the matched prefix removed once and bullets carrying the line with one
leading marker plus whitespace stripped by the single regex; it therefore
coincides with the classifier written from the specification's words. -/
theorem c5_format_blocks_spec (s : List Char) :
    formatBlocks s = formatBlocksSpec s := by
  unfold formatBlocks formatBlocksSpec
  have h : classifyLine = classifyLineSpec := funext classifyLine_eq_spec
  rw [h]

/-- C6: span splitting divides the content on the non-greedy global paired
`**` pattern, a fragment is Emphasized exactly when it both starts and
ends with the delimiter (content with the delimiters stripped) and is
PlainText unchanged otherwise, and empty fragments contribute no visible
content (dropping them leaves the rendered text unchanged). -/
theorem c6_spans_spec (content : List Char) :
    parseSpans content = (splitCapture content).map classifyFragSpec
    ∧ textOf ((parseSpans content).filter fun s => decide (s ≠ Span.plain []))
        = textOf (parseSpans content) := by
  constructor
  · unfold parseSpans
    have h : classifyFrag = classifyFragSpec := funext classifyFrag_eq_spec
    rw [h]
  · exact textOf_filter_ne_empty _

/-- C7: `getPieStyle` iterates the star keys in order 5,4,3,2,1, each
segment sweeping `pieVal/100*360` degrees and starting where the previous
one ended; the final end angle is the sum of the five percentages divided
by 100 times 360, with no renormalization to 360 degrees. -/
theorem c7_pie_accumulation (data : List (String × Rat)) :
    getPieStyle data =
      [(colorOf "5", 0, pieDeg data "5"),
       (colorOf "4", pieDeg data "5", pieDeg data "5" + pieDeg data "4"),
       (colorOf "3", pieDeg data "5" + pieDeg data "4",
         pieDeg data "5" + pieDeg data "4" + pieDeg data "3"),
       (colorOf "2", pieDeg data "5" + pieDeg data "4" + pieDeg data "3",
         pieDeg data "5" + pieDeg data "4" + pieDeg data "3" + pieDeg data "2"),
       (colorOf "1",
         pieDeg data "5" + pieDeg data "4" + pieDeg data "3" + pieDeg data "2",
         pieDeg data "5" + pieDeg data "4" + pieDeg data "3" + pieDeg data "2"
           + pieDeg data "1")]
    ∧ pieDeg data "5" + pieDeg data "4" + pieDeg data "3" + pieDeg data "2"
        + pieDeg data "1"
      = (pieVal data "5" + pieVal data "4" + pieVal data "3" + pieVal data "2"
        + pieVal data "1") / 100 * 360 := by
  refine ⟨getPieStyle_explicit data, ?_⟩
  simp only [pieDeg]
  ring

/-- C8 (counterexample): `getPieStyle` on the distribution with only the
key 5 at 100 does not yield a single segment: it always pushes five
segments, the other four being zero-width. -/
theorem c8_claim_counterexample :
    getPieStyle [("5", 100)] ≠ [("#10b981", 0, 360)] := by
  intro h
  have h5 : (getPieStyle [("5", 100)]).length = 5 := rfl
  rw [h] at h5
  simp at h5

/-- C8 (amended): the distribution with only key 5 at 100 yields five
segments of which the star-5 segment spans 0 to 360 degrees and the other
four are zero-width; the empty distribution yields five zero-width
segments. -/
theorem c8_pie_examples :
    getPieStyle [("5", 100)] =
      [("#10b981", 0, 360), ("#34d399", 360, 360), ("#facc15", 360, 360),
       ("#fb923c", 360, 360), ("#f87171", 360, 360)]
    ∧ getPieStyle [] =
      [("#10b981", 0, 0), ("#34d399", 0, 0), ("#facc15", 0, 0),
       ("#fb923c", 0, 0), ("#f87171", 0, 0)] := by
  constructor
  · rw [getPieStyle_explicit]
    have h5 : pieVal [("5", (100 : Rat))] "5" = 100 := rfl
    have h4 : pieVal [("5", (100 : Rat))] "4" = 0 := rfl
    have h3 : pieVal [("5", (100 : Rat))] "3" = 0 := rfl
    have h2 : pieVal [("5", (100 : Rat))] "2" = 0 := rfl
    have h1 : pieVal [("5", (100 : Rat))] "1" = 0 := rfl
    have k5 : colorOf "5" = "#10b981" := rfl
    have k4 : colorOf "4" = "#34d399" := rfl
    have k3 : colorOf "3" = "#facc15" := rfl
    have k2 : colorOf "2" = "#fb923c" := rfl
    have k1 : colorOf "1" = "#f87171" := rfl
    norm_num [pieDeg, h5, h4, h3, h2, h1, k5, k4, k3, k2, k1]
  · rw [getPieStyle_explicit]
    have h0 : ∀ s, pieVal ([] : List (String × Rat)) s = 0 := fun _ => rfl
    have k5 : colorOf "5" = "#10b981" := rfl
    have k4 : colorOf "4" = "#34d399" := rfl
    have k3 : colorOf "3" = "#facc15" := rfl
    have k2 : colorOf "2" = "#fb923c" := rfl
    have k1 : colorOf "1" = "#f87171" := rfl
    norm_num [pieDeg, h0, k5, k4, k3, k2, k1]

/-- C9 (counterexample): the split on `"- item one\n- **item** two"` puts
an empty fragment before the emphasis match, so the second bullet's span
list is not `[Emphasized "item", PlainText " two"]` — it carries a leading
empty PlainText span. -/
theorem c9_claim_counterexample :
    formatBlocks c9Input =
      [Block.bullet [Span.plain ("item one".data)],
       Block.bullet [Span.plain [], Span.emph ("item".data),
         Span.plain (" two".data)]]
    ∧ [Span.plain [], Span.emph ("item".data), Span.plain (" two".data)]
      ≠ [Span.emph ("item".data), Span.plain (" two".data)] := by
  decide

/-- C9 (amended): the input yields exactly two BulletItem blocks; the
second block's spans are `[PlainText "", Emphasized "item", PlainText
" two"]`, whose visible text equals that of `[Emphasized "item",
PlainText " two"]` since the leading empty fragment contributes nothing. -/
theorem c9_format_bullets :
    formatBlocks c9Input =
      [Block.bullet [Span.plain ("item one".data)],
       Block.bullet [Span.plain [], Span.emph ("item".data),
         Span.plain (" two".data)]]
    ∧ textOf [Span.plain [], Span.emph ("item".data), Span.plain (" two".data)]
      = textOf [Span.emph ("item".data), Span.plain (" two".data)] := by
  decide

/-- C10: when the regex matches and the captured substring parses but the
`sentiment_distribution` field is falsy (missing, null, 0, false or the
empty string), the distribution is absent while the cleaned text still has
the matched block removed, dash separators stripped and whitespace
trimmed: removal depends only on match plus parse success. -/
theorem c10_extract_falsy_field (raw m0 m1 : List Char) (p : Json)
    (hm : findMatch raw = some (m0, m1)) (hp : jsonParse m1 = some p)
    (hf : jsTruthyOpt (getField p sdKey) = false) :
    extractSentiment raw = (cleanAfter raw m0, none) := by
  simp [extractSentiment, hm, hp, hf]

/-- C10 witness: a block whose field is `null` is removed from the text
while the distribution stays absent. -/
theorem c10_extract_falsy_field_witness :
    findMatch c10wRaw = some (c10wM0, c10wM1)
    ∧ jsonParse c10wM1 = some (Json.obj [(sdKey, Json.null)])
    ∧ jsTruthyOpt (getField (Json.obj [(sdKey, Json.null)]) sdKey) = false
    ∧ extractSentiment c10wRaw = ("note".data, none) := by
  refine ⟨rfl, rfl, rfl, ?_⟩
  have h := c10_extract_falsy_field c10wRaw c10wM0 c10wM1
    (Json.obj [(sdKey, Json.null)]) rfl rfl rfl
  rw [h]
  rfl

end Educator
